import Mathlib

/-!
# Verification of the `filedatasource` tabular-data access layer

Shallow embedding of the repository's core modules:

* `datafile.py` — the `DataReader`/`DataWriter` contracts (read modes, bulk
  helpers, shape dispatch);
* `csvfile.py`  — `CsvWriter`/`CsvReader` (header handling, append mode,
  gzip-suffix detection, the overridden `write`);
* `excel.py`    — `ExcelWriter`/`ExcelReader` (header row, append-as-rewrite,
  `remove_empty_cells`, `write_row` row-index bookkeeping);
* `builder.py`  — extension dispatch (`open_reader`/`open_writer`) and
  `equals`.

Modelling conventions:

* Python scalar cell values are `Value` (`str`, `int`, or `none`); a Python
  `dict` row is an insertion-ordered association list `Dict` with (assumed)
  unique keys, looked up with `List.lookup`.
* Raising is `Except PyError`; `StopIteration` is `PyError.stopIteration`.
* The concrete text encoding of a CSV line and the gzip byte-stream are out
  of scope (the spec treats the CSV tokenizer and the compression filter as
  external collaborators), so a CSV file is a list of token lists and
  compression is a tag on the stored file.
* The source tree has version skew between modules: `utils.py` and
  `DataSourceError` are imported but absent, `datafile.DataWriter` lacks the
  two-argument constructor that `excel.py` calls, and `CsvReader` lacks the
  `mode`/`types` parameters that `builder.py` passes.  Functions from the
  absent `utils` module are modelled from the spec (marked in their doc
  comments); the writer-constructor glue follows the spec's statement that a
  writer is constructed from a path, field names and a WRITE/APPEND mode.
-/

namespace FileDataSource

/-- A Python scalar cell value: a string, an integer, or `None`. -/
inductive Value where
  | str : String → Value
  | int : Int → Value
  | none : Value
deriving Repr, DecidableEq

/-- A Python `dict` row: insertion-ordered association list from field name
to value (Python dict keys are unique; lookups take the first match). -/
abbrev Dict := List (String × Value)

/-- The Python exceptions the embedded code can raise. -/
inductive PyError where
  | stopIteration
  | typeError
  | indexError
  | valueError (msg : String)
  | badFile
deriving Repr, DecidableEq

/-- Embeds `str()` as the CSV layer applies it when encoding a cell:
`None` is written as the empty field, numbers via their decimal form. -/
def pyStr : Value → String
  | Value.str s => s
  | Value.int n => toString n
  | Value.none => ""

/-- Python `str.endswith`, computed on the character list (core's
`String.endsWith` is a byte-position loop the kernel cannot unfold, so the
embedding uses this equivalent executable form). -/
def pyEndsWith (s suffix : String) : Bool :=
  decide (suffix.toList = s.toList.drop (s.toList.length - suffix.toList.length))

/-- Python `str.startswith`, computed on the character list (same reason as
`pyEndsWith`). -/
def pyStartsWith (s p : String) : Bool :=
  decide (p.toList = s.toList.take p.toList.length)

/-- Python `str.lower`, computed on the character list (same reason as
`pyEndsWith`). -/
def pyLower (s : String) : String :=
  String.mk (s.toList.map Char.toLower)

/-- Embeds `csvfile.Mode`: the writing mode (`'w'` or `'a'`). -/
inductive Mode where
  | write
  | append
deriving Repr, DecidableEq

/-- Embeds `datafile.ReadMode`: the shape a reader's iteration yields. -/
inductive ReadMode where
  | object
  | dict
  | list
deriving Repr, DecidableEq

/-- The three row presentations a reader can yield: a synthesized object
(attribute association list), a dict, or a plain value list. -/
inductive Shape where
  | obj : List (String × Value) → Shape
  | dict : Dict → Shape
  | list : List Value → Shape
deriving Repr, DecidableEq

/-- A Python value passed to `DataWriter.write`, classified by the shapes its
dispatch distinguishes: a list, a dict, or any other object (represented by
its public, non-callable attributes as name/value pairs). -/
inductive PyVal where
  | list : List Value → PyVal
  | dict : Dict → PyVal
  | obj : List (String × Value) → PyVal
deriving Repr, DecidableEq

/-! ## Row-shape utilities (`utils.py`)

The module `filedatasource/utils.py` is imported by `datafile.py` but is not
part of this source tree; the functions below are modelled from the spec. -/

/-- Modelled from the spec: `to_identifier` (absent `utils.py`) normalizes a
mapping key into a valid attribute identifier — non-identifier characters
are replaced and a leading digit is guarded (the test suite pins
`'1' ↦ 'n1'` and `'G&S' ↦ 'G_S'`). -/
def to_identifier (s : String) : String :=
  let t := String.mk (s.toList.map (fun c => if c.isAlphanum then c else '_'))
  match s.toList with
  | [] => t
  | c :: _ => if c.isDigit then "n" ++ t else t

/-- Modelled from the spec: `dict2obj` (absent `utils.py`) synthesizes a
record value whose attribute names are the mapping's keys passed through
identifier normalization, keeping the values. -/
def dict2obj (d : Dict) : List (String × Value) :=
  d.map (fun kv => (to_identifier kv.1, kv.2))

/-- Modelled from the spec: `dict2list` (absent `utils.py`) projects a row
mapping onto its ordered value list. -/
def dict2list (d : Dict) : List Value :=
  d.map (fun kv => kv.2)

/-- Modelled from the spec: `attributes2dict` (absent `utils.py`) turns a
record value's public, non-callable fields into a field-name→value mapping. -/
def attributes2dict (o : List (String × Value)) : Dict := o

/-! ## `datafile.DataReader`: read modes and bulk helpers -/

/-- The state of a `DataReader` over its source: the parsed rows of the
backing file, the current position, and the fixed read mode.  Both concrete
readers expose exactly this shape: `CsvReader.read_row` pulls the next parsed
line from `csv.DictReader`, and `ExcelReader.read_row` keeps a row counter
`__row` into the sheet, raising `StopIteration` at the end without moving. -/
structure DataReader where
  rows : List Dict
  pos : Nat
  mode : ReadMode
deriving Repr, DecidableEq

/-- The single-row primitive `read_row`: the next row as a dict, advancing
the position, or `StopIteration` (leaving the position unchanged) when no
rows remain. -/
def DataReader.read_row (r : DataReader) : Except PyError (Dict × DataReader) :=
  if h : r.pos < r.rows.length then
    Except.ok (r.rows.get ⟨r.pos, h⟩, { r with pos := r.pos + 1 })
  else
    Except.error PyError.stopIteration

/-- Embeds `DataReader.read`: mode dispatch around `read_row` — DICT returns the
mapping, OBJECT synthesizes a record via `dict2obj`, LIST projects the
values via `dict2list`. -/
def DataReader.read (r : DataReader) : Except PyError (Shape × DataReader) :=
  match r.mode, r.read_row with
  | _, Except.error e => Except.error e
  | ReadMode.dict, Except.ok (d, r') => Except.ok (Shape.dict d, r')
  | ReadMode.object, Except.ok (d, r') => Except.ok (Shape.obj (dict2obj d), r')
  | ReadMode.list, Except.ok (d, r') => Except.ok (Shape.list (dict2list d), r')

theorem DataReader.read_ok {r : DataReader} {s : Shape} {r' : DataReader}
    (h : r.read = Except.ok (s, r')) :
    r'.rows = r.rows ∧ r'.pos = r.pos + 1 ∧ r.pos < r.rows.length := by
  by_cases hp : r.pos < r.rows.length
  · cases hm : r.mode <;>
      simp only [DataReader.read, DataReader.read_row, hm, dif_pos hp] at h <;>
      (obtain ⟨h1, h2⟩ := Prod.mk.injEq .. ▸ (Except.ok.injEq .. ▸ h)) <;>
      subst h2 <;> exact ⟨rfl, rfl, hp⟩
  · cases hm : r.mode <;>
      simp only [DataReader.read, DataReader.read_row, hm, dif_neg hp] at h <;>
      exact Except.noConfusion h

/-- Embeds `DataReader.read_objects` = `[obj for obj in self]`: the `for` loop calls
`__next__` (= `read`) until it catches `StopIteration`. -/
def DataReader.read_objects (r : DataReader) : List Shape :=
  match h : r.read with
  | Except.error _ => []
  | Except.ok (s, r') => s :: r'.read_objects
termination_by r.rows.length - r.pos
decreasing_by
  obtain ⟨h1, h2, h3⟩ := DataReader.read_ok h
  simp only [h1, h2]
  omega

/-- Iterating a Python value with a `for` loop: a dict yields its keys, a
list its elements, and a synthesized object is not iterable (`TypeError`). -/
def iterShape : Shape → Except PyError (List Value)
  | Shape.dict d => Except.ok (d.map (fun kv => Value.str kv.1))
  | Shape.list l => Except.ok l
  | Shape.obj _ => Except.error PyError.typeError

/-- Embeds `DataReader.read_rows` = `[row for row in next(self)]`: `next(self)`
reads ONE row (in the reader's mode) and the comprehension then iterates
over that single row value; a `StopIteration` raised by `next(self)` is the
outer iterable expression failing, so it propagates to the caller. -/
def DataReader.read_rows (r : DataReader) : Except PyError (List Value × DataReader) :=
  match r.read with
  | Except.error e => Except.error e
  | Except.ok (s, r') =>
    match iterShape s with
    | Except.error e => Except.error e
    | Except.ok l => Except.ok (l, r')

/-- Embeds `DataReader.read_lists`: the body is `# TODO` followed by `pass`, so the
call always returns Python `None` (here: `Option.none`). -/
def DataReader.read_lists (_r : DataReader) : Option (List (List Value)) :=
  Option.none

/-! ## `datafile.DataWriter`: shape dispatch -/

/-- Embeds `DataWriter.write_list`: `{field: lst[i] for i, field in
enumerate(self.fieldnames)}` — pairs each field name with the value at its
position (an `IndexError` if the list is shorter than the field names; with
unique field names the comprehension is the positional zip). -/
def write_list_dict (fieldnames : List String) (l : List Value) :
    Except PyError Dict :=
  if fieldnames.length ≤ l.length then Except.ok (fieldnames.zip l)
  else Except.error PyError.indexError

/-- Embeds `DataWriter.write` shape dispatch, expressed as the mapping that is
delegated to the primitive `write_row`: a list is zipped with the field
names (`write_list` → `write_dict`), a dict is delegated directly
(`write_dict`), and any other value has its public non-callable attributes
introspected (`write_object` → `attributes2dict`). -/
def dataWriterWrite (fieldnames : List String) (o : PyVal) :
    Except PyError Dict :=
  match o with
  | PyVal.list l => write_list_dict fieldnames l
  | PyVal.dict d => Except.ok d
  | PyVal.obj a => Except.ok (attributes2dict a)

/-! ## `csvfile.CsvWriter` / `csvfile.CsvReader`

A CSV file on disk is its decoded grid: one token list per line (the spec
treats the line encoder/tokenizer as an external collaborator). -/

/-- The state of a `CsvWriter`: its fixed field names and the lines of the
file it has produced so far (including any pre-existing lines it was
appended to). -/
structure CsvWriterState where
  fieldnames : List String
  file : List (List String)
deriving Repr, DecidableEq

/-- Embeds `CsvWriter.__init__`: `self._fieldnames = fieldnames if fieldnames else
[]` (both `None` and an empty list fall back to `[]`); the file is opened
with `'w'` (truncate) or `'a'` (position at end of the existing content);
`DictWriter.writeheader()` runs only in WRITE mode.  No error path exists:
in particular, append mode with no field names is accepted. -/
def mkCsvWriter (fieldnames : Option (List String)) (mode : Mode)
    (existing : List (List String)) : CsvWriterState :=
  let fns := fieldnames.getD []
  match mode with
  | Mode.write => ⟨fns, [fns]⟩
  | Mode.append => ⟨fns, existing⟩

/-- Embeds `csv.DictWriter.writerow` (as called by `CsvWriter.write_row` /
`write_rows`): raises `ValueError` if the row has a key outside the field
names (`extrasaction='raise'`); otherwise appends one line with the row's
value per field in field-name order, missing fields as the empty rest
value. -/
def csvWriteRow (w : CsvWriterState) (row : Dict) :
    Except PyError CsvWriterState :=
  if row.all (fun kv => w.fieldnames.contains kv.1) then
    Except.ok ⟨w.fieldnames,
      w.file ++ [w.fieldnames.map (fun f => pyStr ((row.lookup f).getD Value.none))]⟩
  else
    Except.error (PyError.valueError "dict contains fields not in fieldnames")

/-- Embeds `CsvWriter.write_rows`: `for row in rows: self._writer.writerow(row)`. -/
def csvWriteRows (w : CsvWriterState) : List Dict → Except PyError CsvWriterState
  | [] => Except.ok w
  | row :: rest =>
    match csvWriteRow w row with
    | Except.error e => Except.error e
    | Except.ok w' => csvWriteRows w' rest

/-- Embeds `csv.DictReader` over a file's lines (as `CsvReader` wraps it), fully
drained: the first line supplies the field names and every further line
becomes the dict zipping them with the line's decoded text tokens (lines
here have the header's length, the case this code base produces). -/
def csvReadAll (file : List (List String)) : List Dict :=
  match file with
  | [] => []
  | header :: lines => lines.map (fun line => header.zip (line.map Value.str))

/-- The state of a `CsvReader`'s `DictReader`: header, data lines, and the
position of the underlying line iterator. -/
structure CsvReaderState where
  header : List String
  lines : List (List String)
  pos : Nat
deriving Repr, DecidableEq

/-- Embeds `CsvReader.read_row` = `next(self._reader)`: the next parsed line as a
dict, or `StopIteration` once the line source is exhausted (the exhausted
iterator keeps raising; nothing is reset). -/
def csvReadRow (r : CsvReaderState) : Except PyError (Dict × CsvReaderState) :=
  if h : r.pos < r.lines.length then
    Except.ok (r.header.zip ((r.lines.get ⟨r.pos, h⟩).map Value.str),
      { r with pos := r.pos + 1 })
  else
    Except.error PyError.stopIteration

/-- Embeds `CsvWriter.write` (the override in `csvfile.py`): ignores the value's
shape entirely — it introspects the public non-callable members, builds
`{att[1]: att[1] for att in members if not att[0].startswith('_')}` (the
member VALUES serve as both keys and values), and then calls
`self._writer.writerow(**attributes)`.  `DictWriter.writerow` accepts the
row as one positional dict and no keyword arguments, so the call raises
`TypeError` for every input.  The first component records the `attributes`
mapping the code builds before the failing call. -/
def csvWriterWrite (o : PyVal) : List (Value × Value) × Except PyError Unit :=
  let members : List (String × Value) :=
    match o with
    | PyVal.obj a => a
    | PyVal.list _ => []
    | PyVal.dict _ => []
  let attributes :=
    (members.filter (fun att => ¬ pyStartsWith att.1 "_")).map
      (fun att => (att.2, att.2))
  (attributes, Except.error PyError.typeError)

/-- Embeds `CsvWriter.__init__` compression test: `gzip.open if
file_or_io.endswith('gz') else open` — note: no dot. -/
def csvWriterUsesGzip (fname : String) : Bool :=
  pyEndsWith fname "gz"

/-- Embeds `CsvReader.__open_file` compression test: `gzip.open if
fname.endswith('.gz') else open`. -/
def csvReaderUsesGzip (fname : String) : Bool :=
  pyEndsWith fname ".gz"

/-- A CSV file as stored on disk: its decoded grid, either plain or wrapped
in the gzip stream filter. -/
inductive Stored where
  | plain : List (List String) → Stored
  | gzipped : List (List String) → Stored
deriving Repr, DecidableEq

/-- Writing a grid to a path with `CsvWriter`: the stream is gzip-wrapped
exactly when the path passes `csvWriterUsesGzip`. -/
def csvWriteFile (fname : String) (lines : List (List String)) : Stored :=
  if csvWriterUsesGzip fname then Stored.gzipped lines else Stored.plain lines

/-- Reading a path with `CsvReader`: the stream is gzip-unwrapped exactly
when the path passes `csvReaderUsesGzip`; reading a gzipped file as plain
text (or a plain file through gzip) fails instead of yielding the grid. -/
def csvReadFile (fname : String) (s : Stored) :
    Except PyError (List (List String)) :=
  if csvReaderUsesGzip fname then
    match s with
    | Stored.gzipped l => Except.ok l
    | Stored.plain _ => Except.error PyError.badFile
  else
    match s with
    | Stored.plain l => Except.ok l
    | Stored.gzipped _ => Except.error PyError.badFile

/-! ## `builder.py`: extension dispatch and `equals` -/

/-- The concrete implementation the dispatcher (together with the
spreadsheet layer's engine branch) selects for a file name. -/
inductive Route where
  | csv
  | excelXls
  | excelXlsx
deriving Repr, DecidableEq

/-- Embeds `builder.open_reader` routing composed with `ExcelReader.__init__`'s
engine branch: `.csv`/`.csv.gz` (case-insensitively) → `CsvReader`;
`.xls`/`.xlsx` → `ExcelReader`, which picks the zipped-XML engine for
`.xlsx` and the legacy engine for `.xls`; anything else raises `ValueError`
before any I/O. -/
def openReaderRoute (fname : String) : Except PyError Route :=
  let l := pyLower fname
  if pyEndsWith l ".csv" || pyEndsWith l ".csv.gz" then Except.ok Route.csv
  else if pyEndsWith l ".xls" || pyEndsWith l ".xlsx" then
    (if pyEndsWith l ".xlsx" then Except.ok Route.excelXlsx
     else Except.ok Route.excelXls)
  else
    Except.error (PyError.valueError
      "The file name has to finish in .csv, .csv.gz, .xls, or .xlsx to use this function")

/-- Embeds `builder.open_writer` routing composed with `create_excel`'s engine
branch (same extension tests as `open_reader`). -/
def openWriterRoute (fname : String) : Except PyError Route :=
  let l := pyLower fname
  if pyEndsWith l ".csv" || pyEndsWith l ".csv.gz" then Except.ok Route.csv
  else if pyEndsWith l ".xls" || pyEndsWith l ".xlsx" then
    (if pyEndsWith l ".xlsx" then Except.ok Route.excelXlsx
     else Except.ok Route.excelXls)
  else
    Except.error (PyError.valueError
      "The file name has to finish in .csv, .csv.gz, .xls, or .xlsx to use this function")

/-- Embeds `builder.equals` on the two loaded files (each already read as its
ordered list of row dicts by `load_dicts`): lengths must agree, and every
key/value of a row of the first file must appear with an equal value in the
corresponding row of the second; extra keys in the second file's rows are
not inspected. -/
def equalsDicts (dicts1 dicts2 : List Dict) : Bool :=
  dicts1.length == dicts2.length &&
    (dicts1.zip dicts2).all (fun p =>
      p.1.all (fun kv =>
        match p.2.lookup kv.1 with
        | some v => v == kv.2
        | none => false))

/-! ## `excel.py`: `ExcelWriter` / `ExcelReader`

A sheet is its grid of cell values; an unwritten/empty cell is Python
`None` (`Value.none`).  Row 0 is the header.  The claims exercised here
concern the engine-independent sheet content, which both engines share. -/

/-- The state of an `ExcelWriter`: its fixed field names, the sheet written
so far, and the internal row index `__num_row`.  The writer always starts
from a brand-new write-engine document and writes rows at consecutive
indices starting from 0, so `__num_row` is always the number of rows
already in the sheet and `write_row` extends the sheet by one row. -/
structure ExcelWriterState where
  fieldnames : List String
  sheet : List (List Value)
  numRow : Nat
deriving Repr, DecidableEq

/-- Embeds `ExcelWriter.write_row`: for each position `i` in the field-name list,
the cell `(num_row, i)` is written with the row's value when the field is
present in the mapping (keys outside the field-name list are never
consulted; absent fields leave the cell empty); `__num_row` then advances
by one, even if no cell was written. -/
def excelWriteRow (w : ExcelWriterState) (row : Dict) : ExcelWriterState :=
  ⟨w.fieldnames,
   w.sheet ++ [w.fieldnames.map (fun f => (row.lookup f).getD Value.none)],
   w.numRow + 1⟩

/-- Embeds `DataWriter.write_list` on an `ExcelWriter` (used for the header row):
zips the field names with the list and delegates to `write_row`
(an `IndexError` if the list is shorter than the field names). -/
def excelWriteList (w : ExcelWriterState) (l : List Value) :
    Except PyError ExcelWriterState :=
  if w.fieldnames.length ≤ l.length then
    Except.ok (excelWriteRow w (w.fieldnames.zip l))
  else Except.error PyError.indexError

/-- Embeds `DataWriter.write_dicts` on an `ExcelWriter`: one `write_row` per dict,
in order. -/
def excelWriteDicts (w : ExcelWriterState) (rows : List Dict) :
    ExcelWriterState :=
  rows.foldl excelWriteRow w

/-- Python `del lst[i]`: removes the element at `i`, or raises `IndexError`
when `i` is out of range. -/
def listDel (l : List α) (i : Nat) : Except PyError (List α) :=
  if i < l.length then Except.ok (l.eraseIdx i) else Except.error PyError.indexError

/-- The loop of `ExcelReader.remove_empty_cells` over the descending index
list `range(len(cells)-1, -1, -1)`: at the first index whose cell `is not
None` the method returns `cells` unchanged; otherwise it executes
`del self._fieldnames[i]` — deleting from `self._fieldnames`, NOT from
`cells` — and continues.  `fns` is the current `self._fieldnames`. -/
def removeEmptyCellsGo (cells : List Value) :
    List Nat → List String → Except PyError (List Value)
  | [], _ => Except.ok cells
  | i :: rest, fns =>
    if cells.getD i Value.none ≠ Value.none then Except.ok cells
    else
      match listDel fns i with
      | Except.error e => Except.error e
      | Except.ok fns' => removeEmptyCellsGo cells rest fns'

/-- Embeds `ExcelReader.remove_empty_cells` as invoked during field-name discovery
(`self._fieldnames = self.remove_empty_cells([cell.value for cell in
next(self.sheet.rows)])`): at that point `ExcelData.__init__` has just set
`self._fieldnames = []`, so the deletions operate on the empty list. -/
def removeEmptyCells (cells : List Value) : Except PyError (List Value) :=
  removeEmptyCellsGo cells (List.range cells.length).reverse []

/-- A header cell used as a field name; the reader uses the cell value
directly, and in the files this development exercises header cells are
strings (a non-string header cell falls outside the `Dict` model). -/
def toFieldName : Value → Except PyError String
  | Value.str s => Except.ok s
  | _ => Except.error PyError.typeError

/-- Field-name discovery of `ExcelReader.__init__` (zipped-XML engine):
take the header row's cell values, pass them through `remove_empty_cells`,
and use the results as field names (an empty sheet has no header row to
fetch: `next(self.sheet.rows)` raises). -/
def headerFieldnames (sheet : List (List Value)) : Except PyError (List String) :=
  match sheet with
  | [] => Except.error PyError.stopIteration
  | header :: _ =>
    match removeEmptyCells header with
    | Except.error e => Except.error e
    | Except.ok cells => cells.mapM toFieldName

/-- Embeds `iter_rows(values_only=True, max_col=len(fieldnames))` padding: every
yielded row has exactly `max_col` cells, short rows padded with `None`. -/
def padTruncate (l : List Value) (n : Nat) : List Value :=
  l.take n ++ List.replicate (n - l.length) Value.none

/-- The state of an `ExcelReader` (zipped-XML engine): the sheet, the
discovered field names, and the row counter `self.__row`, which starts at 1
(row 0 is the header). -/
structure ExcelReaderState where
  sheet : List (List Value)
  fieldnames : List String
  row : Nat
deriving Repr, DecidableEq

/-- Embeds `ExcelReader.read_row`: while `self.__row < sheet.max_row` the counter
advances and the next data row is returned as the dict zipping the field
names with the row's (padded/truncated) cells; past the last row it raises
`StopIteration` without touching the counter, so a later call raises
again. -/
def excelReadRow (r : ExcelReaderState) : Except PyError (Dict × ExcelReaderState) :=
  if r.row < r.sheet.length then
    Except.ok (r.fieldnames.zip
        (padTruncate (r.sheet.getD r.row []) r.fieldnames.length),
      { r with row := r.row + 1 })
  else
    Except.error PyError.stopIteration

/-- An `ExcelReader` fully drained in DICT mode: field names from the
header, then one dict per data row (rows 1..N). -/
def excelReadAllDicts (sheet : List (List Value)) : Except PyError (List Dict) :=
  match headerFieldnames sheet with
  | Except.error e => Except.error e
  | Except.ok fns =>
    Except.ok ((sheet.drop 1).map (fun r => fns.zip (padTruncate r fns.length)))

/-- Embeds `ExcelWriter.__init__` in WRITE mode: `if not fieldnames: raise
ValueError(...)` (both `None` and `[]` are falsy); otherwise a brand-new
write-engine document is created and the field names are immediately
written as the header row via `write_list`. -/
def mkExcelWriterWrite (fieldnames : Option (List String)) :
    Except PyError ExcelWriterState :=
  let fns := fieldnames.getD []
  if fns.isEmpty then
    Except.error (PyError.valueError
      "The fieldnames parameters must contain a least a field name in write mode.")
  else
    excelWriteList ⟨fns, [], 0⟩ (fns.map Value.str)

/-- Embeds `ExcelWriter.__init__` in APPEND mode: open the existing file with an
`ExcelReader` in DICT mode, take the explicit field names if given (falsy
values fall back to the reader's discovered field names), create a
brand-new write-engine document, rewrite the header, and replay every
existing data row through `import_reader` (each dict goes through `write`'s
dict branch to `write_row`). -/
def mkExcelWriterAppend (existing : List (List Value))
    (fieldnames : Option (List String)) : Except PyError ExcelWriterState :=
  match headerFieldnames existing with
  | Except.error e => Except.error e
  | Except.ok readerFns =>
    let fns := match fieldnames with
      | some f => if f.isEmpty then readerFns else f
      | none => readerFns
    match excelWriteList ⟨fns, [], 0⟩ (fns.map Value.str) with
    | Except.error e => Except.error e
    | Except.ok w1 =>
      let rows := (existing.drop 1).map
        (fun r => readerFns.zip (padTruncate r readerFns.length))
      Except.ok (excelWriteDicts w1 rows)

/-! ## Helper lemmas -/

theorem DataReader.read_objects_of_error {r : DataReader} {e : PyError}
    (h : r.read = Except.error e) : r.read_objects = [] := by
  rw [DataReader.read_objects.eq_def]
  split
  · rfl
  · rename_i s r' heq
    rw [h] at heq
    exact Except.noConfusion heq

theorem DataReader.read_objects_of_ok {r : DataReader} {s : Shape} {r' : DataReader}
    (h : r.read = Except.ok (s, r')) : r.read_objects = s :: r'.read_objects := by
  rw [DataReader.read_objects.eq_def]
  split
  · rename_i heq
    rw [h] at heq
    exact Except.noConfusion heq
  · rename_i s2 r2 heq
    rw [h] at heq
    obtain ⟨h1, h2⟩ := Prod.mk.injEq .. ▸ (Except.ok.injEq .. ▸ heq)
    rw [h1, h2]

/-- Looking each field of a duplicate-free field-name list up in the dict
that zips the list with a value list recovers the values, position by
position. -/
theorem map_lookup_zip {β : Type} (g : Value → β) (d : Value) :
    ∀ (F : List String), F.Nodup → ∀ (w : List Value), w.length = F.length →
      F.map (fun f => g (((F.zip w).lookup f).getD d)) = w.map g := by
  intro F
  induction F with
  | nil =>
    intro _ w hw
    rw [List.length_eq_zero.mp hw]
    rfl
  | cons f F ih =>
    intro hnd w hw
    cases w with
    | nil => exact absurd hw (by simp)
    | cons v w' =>
      rw [List.nodup_cons] at hnd
      simp only [List.zip_cons_cons, List.map_cons]
      congr 1
      · simp [List.lookup]
      · have hstep : ∀ f' ∈ F,
            (fun f'' => g ((((f, v) :: F.zip w').lookup f'').getD d)) f' =
              (fun f'' => g (((F.zip w').lookup f'').getD d)) f' := by
          intro f' hf'
          have hne : (f' == f) = false := by
            refine beq_eq_false_iff_ne.mpr ?_
            intro hEq
            exact hnd.1 (hEq ▸ hf')
          simp [List.lookup, hne]
        rw [List.map_congr_left hstep]
        exact ih hnd.2 w' (by simpa using hw)

/-- Every key of a zipped dict comes from the field-name list. -/
theorem zip_keys_mem (F : List String) (w : List Value) :
    ∀ kv ∈ F.zip w, kv.1 ∈ F := by
  intro ⟨a, b⟩ hkv
  exact (List.of_mem_zip hkv).1

/-- Looking up a field of the field-name list is unaffected by first
filtering the dict down to the entries whose keys are field names. -/
theorem lookup_filter_contains (F : List String) (row : Dict) (f : String)
    (hf : f ∈ F) :
    (row.filter (fun kv => F.contains kv.1)).lookup f = row.lookup f := by
  induction row with
  | nil => rfl
  | cons kv rest ih =>
    by_cases hk : kv.1 ∈ F
    · have hc : F.contains kv.1 = true := List.elem_iff.mpr hk
      simp only [List.filter_cons, hc, if_true, List.lookup]
      cases hbe : f == kv.1
      · exact ih
      · rfl
    · have hc : F.contains kv.1 = false := by
        cases hcc : F.contains kv.1
        · rfl
        · exact absurd (List.elem_iff.mp hcc) hk
      have hne : (f == kv.1) = false := by
        refine beq_eq_false_iff_ne.mpr ?_
        intro hEq
        exact hk (hEq ▸ hf)
      simp only [List.filter_cons, hc, List.lookup, hne]
      exact ih

/-- Embeds `DictWriter.writerow` on a row zipping the writer's (duplicate-free)
field names with a list of strings appends exactly that line. -/
theorem csvWriteRow_zip (F : List String) (hnd : F.Nodup)
    (file : List (List String)) (s : List String) (hs : s.length = F.length) :
    csvWriteRow ⟨F, file⟩ (F.zip (s.map Value.str)) =
      Except.ok ⟨F, file ++ [s]⟩ := by
  unfold csvWriteRow
  have hall : (F.zip (s.map Value.str)).all
      (fun kv => List.contains F kv.1) = true := by
    rw [List.all_eq_true]
    intro kv hkv
    exact List.elem_iff.mpr (zip_keys_mem F (s.map Value.str) kv hkv)
  simp only [hall, if_true]
  have hline := map_lookup_zip pyStr Value.none F hnd (s.map Value.str)
    (by simpa using hs)
  rw [hline, List.map_map]
  have : (pyStr ∘ Value.str) = id := by
    funext x
    rfl
  rw [this, List.map_id]

/-- Embeds `CsvWriter.write_rows` over rows of the zipped form appends their
string lines in order. -/
theorem csvWriteRows_zip (F : List String) (hnd : F.Nodup) :
    ∀ (S : List (List String)) (file : List (List String)),
      (∀ s ∈ S, s.length = F.length) →
      csvWriteRows ⟨F, file⟩ (S.map (fun s => F.zip (s.map Value.str))) =
        Except.ok ⟨F, file ++ S⟩ := by
  intro S
  induction S with
  | nil =>
    intro file _
    simp [csvWriteRows]
  | cons s S ih =>
    intro file hS
    simp only [List.map_cons, csvWriteRows]
    rw [csvWriteRow_zip F hnd file s (hS s (by simp))]
    have := ih (file ++ [s]) (fun x hx => hS x (by simp [hx]))
    simp only [this]
    congr 1
    simp

/-- Embeds `ExcelWriter.write_row` on a row zipping the (duplicate-free) field
names with a value list appends exactly those cells. -/
theorem excelWriteRow_zip (F : List String) (hnd : F.Nodup)
    (sheet : List (List Value)) (n : Nat) (v : List Value)
    (hv : v.length = F.length) :
    excelWriteRow ⟨F, sheet, n⟩ (F.zip v) = ⟨F, sheet ++ [v], n + 1⟩ := by
  unfold excelWriteRow
  have hcells : F.map (fun f => ((F.zip v).lookup f).getD Value.none) = v := by
    have hline := map_lookup_zip id Value.none F hnd v hv
    simpa using hline
  rw [hcells]

/-- Embeds `write_dicts` over rows of the zipped form appends their cell rows in
order and advances the row index by their count. -/
theorem excelWriteDicts_zip (F : List String) (hnd : F.Nodup) :
    ∀ (V : List (List Value)) (sheet : List (List Value)) (n : Nat),
      (∀ v ∈ V, v.length = F.length) →
      excelWriteDicts ⟨F, sheet, n⟩ (V.map (fun v => F.zip v)) =
        ⟨F, sheet ++ V, n + V.length⟩ := by
  intro V
  induction V with
  | nil =>
    intro sheet n _
    simp [excelWriteDicts]
  | cons v V ih =>
    intro sheet n hV
    simp only [List.map_cons, excelWriteDicts, List.foldl_cons]
    rw [excelWriteRow_zip F hnd sheet n v (hV v (by simp))]
    have := ih (sheet ++ [v]) (n + 1) (fun x hx => hV x (by simp [hx]))
    simp only [excelWriteDicts] at this
    rw [this, show sheet ++ [v] ++ V = sheet ++ v :: V by simp,
      show n + 1 + V.length = n + (v :: V).length by simp; omega]

/-- Embeds `write_row` never changes the writer's field names. -/
theorem excelWriteDicts_fieldnames :
    ∀ (rows : List Dict) (w : ExcelWriterState),
      (excelWriteDicts w rows).fieldnames = w.fieldnames := by
  intro rows
  induction rows with
  | nil => intro w; rfl
  | cons r rows ih =>
    intro w
    simp only [excelWriteDicts, List.foldl_cons]
    exact ih (excelWriteRow w r)

/-- When the last header cell is non-empty, `remove_empty_cells` returns
the cells unchanged (the loop exits on its first iteration). -/
theorem removeEmptyCells_of_last_ne (cells : List Value) (h : cells ≠ [])
    (hlast : cells.getD (cells.length - 1) Value.none ≠ Value.none) :
    removeEmptyCells cells = Except.ok cells := by
  unfold removeEmptyCells
  obtain ⟨k, hk⟩ : ∃ k, cells.length = k + 1 := by
    cases hc : cells with
    | nil => exact absurd hc h
    | cons a l => exact ⟨l.length, by simp⟩
  rw [hk, List.range_succ, List.reverse_append]
  simp only [List.reverse_cons, List.reverse_nil, List.nil_append,
    List.singleton_append]
  unfold removeEmptyCellsGo
  rw [if_pos (by rw [hk] at hlast; simpa using hlast)]

/-- A list of string header cells maps back to its field names. -/
theorem mapM_toFieldName (F : List String) :
    (F.map Value.str).mapM toFieldName = Except.ok F := by
  induction F with
  | nil => rfl
  | cons f F ih =>
    rw [List.map_cons, List.mapM_cons, ih]
    rfl

/-- Field-name discovery on a sheet whose header row holds the string cells
of a nonempty field-name list recovers that list. -/
theorem headerFieldnames_strs (F : List String) (hne : F ≠ [])
    (rest : List (List Value)) :
    headerFieldnames ((F.map Value.str) :: rest) = Except.ok F := by
  have hcells : F.map Value.str ≠ [] := by
    intro hx
    exact hne (List.map_eq_nil_iff.mp hx)
  have hlen : F.length - 1 < (F.map Value.str).length := by
    have : 0 < F.length := List.length_pos.mpr hne
    simp only [List.length_map]
    omega
  have hlast : (F.map Value.str).getD ((F.map Value.str).length - 1)
      Value.none ≠ Value.none := by
    rw [List.getD_eq_getElem _ _ (by simpa using hlen)]
    simp only [List.getElem_map]
    exact fun hx => Value.noConfusion hx
  simp only [headerFieldnames]
  rw [removeEmptyCells_of_last_ne _ hcells hlast]
  exact mapM_toFieldName F

/-- Padding/truncating a row that already has the target length is the
identity. -/
theorem padTruncate_eq (v : List Value) (n : Nat) (h : v.length = n) :
    padTruncate v n = v := by
  subst h
  simp [padTruncate]

/-- Writing the header row (`write_list` on the field names) of a new
document. -/
theorem excelWriteList_header (F : List String) (hnd : F.Nodup)
    (sheet : List (List Value)) (n : Nat) :
    excelWriteList ⟨F, sheet, n⟩ (F.map Value.str) =
      Except.ok ⟨F, sheet ++ [F.map Value.str], n + 1⟩ := by
  unfold excelWriteList
  rw [if_pos (by simp)]
  rw [excelWriteRow_zip F hnd sheet n (F.map Value.str) (by simp)]

/-! ## Sample inputs used by the evaluation theorems -/

/-- Two single-field rows, `{'a': 1}` and `{'a': 2}`. -/
def sampleRows : List Dict := [[("a", Value.int 1)], [("a", Value.int 2)]]

/-- A DICT-mode reader positioned at the start of `sampleRows`. -/
def sampleReader : DataReader := ⟨sampleRows, 0, ReadMode.dict⟩

/-- A DICT-mode reader positioned one past its last row. -/
def exhaustedReader : DataReader := ⟨sampleRows, 2, ReadMode.dict⟩

/-- A record value with two public attributes, as in the test suite's
`Employee('John', 'Smith')`. -/
def employeeObj : PyVal :=
  PyVal.obj [("name", Value.str "John"), ("surname", Value.str "Smith")]

/-! ## Claims -/

/-- Claim C1: The claim states that `read_objects()`, `read_rows()` and
`read_lists()` each eagerly drain all remaining rows into an ordered list.
Evaluating the code on a reader with two remaining rows: `read_objects`
does drain both rows in order, but `read_rows` returns the KEYS of the
single next row (`[row for row in next(self)]` iterates over one read
row), and `read_lists` (whose body is `# TODO` / `pass`) returns `None`. -/
theorem read_bulk_helpers_on_two_rows :
    sampleReader.read_objects =
        [Shape.dict [("a", Value.int 1)], Shape.dict [("a", Value.int 2)]] ∧
    sampleReader.read_rows =
        Except.ok ([Value.str "a"], ⟨sampleRows, 1, ReadMode.dict⟩) ∧
    sampleReader.read_lists = Option.none := by
  refine ⟨?_, rfl, rfl⟩
  have h1 : sampleReader.read = Except.ok (Shape.dict [("a", Value.int 1)],
      (⟨sampleRows, 1, ReadMode.dict⟩ : DataReader)) := rfl
  have h2 : (⟨sampleRows, 1, ReadMode.dict⟩ : DataReader).read =
      Except.ok (Shape.dict [("a", Value.int 2)],
      (⟨sampleRows, 2, ReadMode.dict⟩ : DataReader)) := rfl
  have h3 : (⟨sampleRows, 2, ReadMode.dict⟩ : DataReader).read =
      Except.error PyError.stopIteration := rfl
  rw [DataReader.read_objects_of_ok h1, DataReader.read_objects_of_ok h2,
    DataReader.read_objects_of_error h3]

/-- Claim C2: The claim states that `write(v)` shape-dispatches for every
writer, including the concrete CSV writer.  The base-class
`DataWriter.write` does dispatch as claimed (list → positional zip with the
field names, dict → direct delegation, object → public-attribute
introspection), but `CsvWriter.write` overrides it without any dispatch: it
builds `{att[1]: att[1]}` — the member VALUES as both keys and values — and
calls `writerow(**attributes)`, which raises `TypeError` for every input
(`DictWriter.writerow` accepts no keyword arguments). -/
theorem csv_writer_write_ignores_shape :
    dataWriterWrite ["name", "surname"] employeeObj =
        Except.ok [("name", Value.str "John"), ("surname", Value.str "Smith")] ∧
    dataWriterWrite ["name", "surname"] (PyVal.dict [("name", Value.str "John")]) =
        Except.ok [("name", Value.str "John")] ∧
    dataWriterWrite ["name", "surname"]
        (PyVal.list [Value.str "John", Value.str "Smith"]) =
      Except.ok [("name", Value.str "John"), ("surname", Value.str "Smith")] ∧
    csvWriterWrite employeeObj =
      ([(Value.str "John", Value.str "John"),
        (Value.str "Smith", Value.str "Smith")],
       Except.error PyError.typeError) :=
  ⟨rfl, rfl, rfl, rfl⟩

/-- Claim C3: The claim (and the dispatch table, and the dispatcher's own
docstring) says a bare `.gz` name routes to the delimited-text
implementation; the code instead raises the unsupported-extension
`ValueError` for it.  The remaining routing holds: `.csv`/`.csv.gz`
(case-insensitively) → CSV, `.xls` → legacy engine, `.xlsx` → zipped-XML
engine. -/
theorem dispatch_routing_and_bare_gz :
    openReaderRoute "data.gz" =
      Except.error (PyError.valueError
        "The file name has to finish in .csv, .csv.gz, .xls, or .xlsx to use this function") ∧
    openWriterRoute "data.gz" =
      Except.error (PyError.valueError
        "The file name has to finish in .csv, .csv.gz, .xls, or .xlsx to use this function") ∧
    openReaderRoute "data.csv" = Except.ok Route.csv ∧
    openReaderRoute "DATA.CSV.GZ" = Except.ok Route.csv ∧
    openReaderRoute "data.xls" = Except.ok Route.excelXls ∧
    openReaderRoute "Data.Xlsx" = Except.ok Route.excelXlsx ∧
    openWriterRoute "data.csv.gz" = Except.ok Route.csv ∧
    openWriterRoute "data.xlsx" = Except.ok Route.excelXlsx :=
  ⟨rfl, rfl, rfl, rfl, rfl, rfl, rfl, rfl⟩

/-- Claim C6: The claim states that past the last row the single-row
primitive raises `StopIteration`, keeps raising on repeated calls, and that
the bulk helpers never surface that condition.  The primitives do raise and
do not move their position on the error path (the concrete `read_row`
bodies mutate only on success, so an exhausted reader keeps raising), and
`read_objects` catches the condition and returns `[]`; but `read_rows` on
an exhausted reader evaluates `next(self)` as the comprehension's outer
iterable, so the `StopIteration` propagates to the caller. -/
theorem end_of_data_raising_and_bulk :
    csvReadRow ⟨["a"], [["1"]], 1⟩ = Except.error PyError.stopIteration ∧
    excelReadRow ⟨[[Value.str "a"], [Value.int 1]], ["a"], 2⟩ =
      Except.error PyError.stopIteration ∧
    exhaustedReader.read_row = Except.error PyError.stopIteration ∧
    exhaustedReader.read_rows = Except.error PyError.stopIteration ∧
    exhaustedReader.read_objects = [] := by
  refine ⟨rfl, rfl, rfl, rfl, ?_⟩
  exact DataReader.read_objects_of_error (e := PyError.stopIteration) rfl

/-- Claim C7: The claim states that field-name discovery removes exactly the
trailing empty header cells.  In the code, `remove_empty_cells` executes
`del self._fieldnames[i]` with `self._fieldnames` still `[]` (it is only
assigned afterwards from the method's result), so any header with a
trailing empty cell raises `IndexError` instead; only headers without
trailing empty cells survive, unchanged. -/
theorem remove_empty_cells_trailing_raises :
    removeEmptyCells [Value.str "a", Value.str "b", Value.none] =
      Except.error PyError.indexError ∧
    removeEmptyCells [Value.str "a", Value.none, Value.str "b"] =
      Except.ok [Value.str "a", Value.none, Value.str "b"] :=
  ⟨rfl, rfl⟩

/-- Claim C10: The writer gzip test is `endswith('gz')` (no dot) while the
reader test is `endswith('.gz')`; a path such as `"datagz"` is therefore
compressed on write but opened as plain text on read, so the write-then-read
round trip over that path cannot return the written rows. -/
theorem gz_suffix_asymmetry :
    csvWriterUsesGzip "datagz" = true ∧
    csvReaderUsesGzip "datagz" = false ∧
    ∀ lines : List (List String),
      csvReadFile "datagz" (csvWriteFile "datagz" lines) =
        Except.error PyError.badFile :=
  ⟨rfl, rfl, fun _ => rfl⟩

/-- A lookup misses when no entry of the dict carries the key. -/
theorem lookup_eq_none_of_keys_ne (row : Dict) (f : String)
    (h : ∀ kv ∈ row, kv.1 ≠ f) : row.lookup f = Option.none := by
  induction row with
  | nil => rfl
  | cons kv rest ih =>
    have hne : (f == kv.1) = false :=
      beq_eq_false_iff_ne.mpr (fun hEq => (h kv (by simp)) hEq.symm)
    simp only [List.lookup, hne]
    exact ih (fun kv2 h2 => h kv2 (by simp [h2]))

/-- Claim C9: `ExcelWriter.write_row` always advances the internal row index
by exactly one; the written cells are determined by the row's entries whose
keys lie in the writer's field-name list (entries with other keys are
ignored), and a row sharing no key with the field names still consumes one
row position, producing a fully blank row. -/
theorem excel_write_row_index_and_cells (w : ExcelWriterState) (row : Dict) :
    (excelWriteRow w row).numRow = w.numRow + 1 ∧
    (excelWriteRow w row).sheet = w.sheet ++
      [w.fieldnames.map (fun f =>
        (((row.filter (fun kv => w.fieldnames.contains kv.1)).lookup f).getD
          Value.none))] ∧
    ((∀ kv ∈ row, kv.1 ∉ w.fieldnames) →
      (excelWriteRow w row).sheet =
        w.sheet ++ [List.replicate w.fieldnames.length Value.none]) := by
  refine ⟨rfl, ?_, ?_⟩
  · show w.sheet ++ [w.fieldnames.map (fun f => (row.lookup f).getD Value.none)] = _
    have hcong : ∀ f ∈ w.fieldnames,
        (fun f' => ((row.lookup f').getD Value.none)) f =
          (fun f' =>
            (((row.filter (fun kv => w.fieldnames.contains kv.1)).lookup f').getD
              Value.none)) f := by
      intro f hf
      simp only [lookup_filter_contains w.fieldnames row f hf]
    rw [List.map_congr_left hcong]
  · intro hdisj
    show w.sheet ++ [w.fieldnames.map (fun f => (row.lookup f).getD Value.none)] = _
    have hcong : ∀ f ∈ w.fieldnames,
        (fun f' => ((row.lookup f').getD Value.none)) f =
          (fun _ => Value.none) f := by
      intro f hf
      simp only [lookup_eq_none_of_keys_ne row f
        (fun kv hkv hEq => hdisj kv hkv (hEq ▸ hf))]
      rfl
    rw [List.map_congr_left hcong, List.map_const']

/-- Witness for C9: a row whose only key `'z'` is not among the field names
`['a', 'b']` still consumes a row position and produces a blank row. -/
theorem excel_write_row_index_and_cells_witness :
    (excelWriteRow ⟨["a", "b"], [], 0⟩ [("z", Value.int 9)]).sheet =
      ([] : List (List Value)) ++
        [List.replicate (["a", "b"] : List String).length Value.none] :=
  (excel_write_row_index_and_cells ⟨["a", "b"], [], 0⟩ [("z", Value.int 9)]).2.2
    (by decide)

/-- The counterexample to **C8**: a `CsvWriter` constructed in APPEND mode
with no field names does not raise — construction completes with the empty
field-name list (the claim states a construction-precondition error is
raised for both writers). -/
theorem csv_append_without_fieldnames_constructs :
    mkCsvWriter Option.none Mode.append [["a"], ["1"]] =
      ⟨[], [["a"], ["1"]]⟩ :=
  rfl

/-- Claim C8, amended.  Field-name validation at construction as the code
actually performs it: the CSV writer never validates (missing field names
fall back to `[]`, in append mode as in write mode); the spreadsheet writer
raises the precondition `ValueError` only in WRITE mode when field names
are missing or empty; in APPEND mode it derives the field names from the
existing file's header row instead of raising. -/
theorem append_fieldname_validation_actual :
    (∀ existing : List (List String),
      mkCsvWriter Option.none Mode.append existing = ⟨[], existing⟩) ∧
    mkExcelWriterWrite Option.none =
      Except.error (PyError.valueError
        "The fieldnames parameters must contain a least a field name in write mode.") ∧
    mkExcelWriterWrite (Option.some []) =
      Except.error (PyError.valueError
        "The fieldnames parameters must contain a least a field name in write mode.") ∧
    (∀ (F : List String) (rest : List (List Value)), F ≠ [] →
      ∃ w : ExcelWriterState,
        mkExcelWriterAppend ((F.map Value.str) :: rest) Option.none =
          Except.ok w ∧ w.fieldnames = F) := by
  refine ⟨fun existing => rfl, rfl, rfl, ?_⟩
  intro F rest hF
  simp only [mkExcelWriterAppend, headerFieldnames_strs F hF rest]
  simp only [excelWriteList]
  rw [if_pos (show F.length ≤ (F.map Value.str).length by simp)]
  refine ⟨_, rfl, ?_⟩
  rw [excelWriteDicts_fieldnames]
  rfl

/-- Witness for C8's amended theorem: appending to a one-column spreadsheet
derives the field name `'a'` from the header. -/
theorem append_fieldname_validation_actual_witness :
    ∃ w : ExcelWriterState,
      mkExcelWriterAppend (((["a"] : List String).map Value.str) ::
          [[Value.int 1]]) Option.none = Except.ok w ∧
        w.fieldnames = ["a"] :=
  append_fieldname_validation_actual.2.2.2 ["a"] [[Value.int 1]] (by decide)

/-- The per-row comparison condition of `equals`, as a Bool test on one
key/value entry against the other file's row. -/
theorem equals_entry_cond (d2 : Dict) (kv : String × Value) :
    (match d2.lookup kv.1 with
      | some v => v == kv.2
      | Option.none => false) = true ↔ d2.lookup kv.1 = some kv.2 := by
  cases hlk : d2.lookup kv.1 with
  | none => simp
  | some v => simp [beq_iff_eq]

/-- Claim C5: `equals` on the two loaded files returns `True` exactly when
the row lists have equal length and, at every position, every key of the
first file's row is present with an equal value in the second file's row;
the second file's rows may carry extra keys without affecting the result
(the comparison only ranges over the first file's entries, hence the
asymmetry). -/
theorem equals_iff_keywise (D1 D2 : List Dict) :
    equalsDicts D1 D2 = true ↔
      (D1.length = D2.length ∧
       ∀ (i : Nat) (h1 : i < D1.length) (h2 : i < D2.length),
         ∀ kv ∈ D1.get ⟨i, h1⟩, (D2.get ⟨i, h2⟩).lookup kv.1 = some kv.2) := by
  unfold equalsDicts
  rw [Bool.and_eq_true, beq_iff_eq, List.all_eq_true]
  constructor
  · rintro ⟨hlen, hall⟩
    refine ⟨hlen, ?_⟩
    intro i h1 h2 kv hkv
    have hzlen : i < (D1.zip D2).length := by
      rw [List.length_zip]
      omega
    have hp := hall ((D1.zip D2).get ⟨i, hzlen⟩) (List.get_mem _ _ hzlen)
    rw [List.get_zip] at hp
    rw [List.all_eq_true] at hp
    exact (equals_entry_cond _ kv).mp (hp kv hkv)
  · rintro ⟨hlen, hI⟩
    refine ⟨hlen, ?_⟩
    intro p hp
    rw [List.mem_iff_get] at hp
    obtain ⟨⟨i, hi⟩, hpi⟩ := hp
    rw [List.get_zip] at hpi
    rw [← hpi]
    rw [List.all_eq_true]
    intro kv hkv
    refine (equals_entry_cond _ kv).mpr ?_
    have hi1 : i < D1.length := List.lt_length_left_of_zip hi
    have hi2 : i < D2.length := List.lt_length_right_of_zip hi
    exact hI i hi1 hi2 kv hkv

/-- Witness for C5: two single-row files where the second file's row has an
extra key `'b'`; `equals` still accepts them. -/
theorem equals_iff_keywise_witness :
    equalsDicts [[("a", Value.int 1)]]
      [[("a", Value.int 1), ("b", Value.int 2)]] = true := by
  refine (equals_iff_keywise _ _).mpr ⟨rfl, ?_⟩
  intro i h1 h2 kv hkv
  have hi0 : i = 0 := by
    simp only [List.length_cons, List.length_nil] at h1
    omega
  subst hi0
  simp only [List.get] at hkv
  rw [List.mem_singleton] at hkv
  subst hkv
  rfl

/-- Claim C4: Append semantics for both writers.  CSV: writing rows `S1` in
WRITE mode (header first), reopening the produced file in APPEND mode with
the same field names (positioned at the end, no second header) and writing
`S2`, then reading everything back with `DictReader`, yields exactly the
rows of `S1` followed by those of `S2`, in order (as text).  Spreadsheet:
writing rows `V1`, then constructing an APPEND-mode writer over the
produced sheet — which re-reads the field names and all existing rows,
creates a new write-engine document, rewrites the header and replays the
existing rows — and writing `V2`, then draining a reader over the final
sheet, yields exactly `V1` followed by `V2`, in order. -/
theorem append_roundtrip_csv_excel
    (F : List String) (hnd : F.Nodup) (hne : F ≠ [])
    (S1 S2 : List (List String)) (hS : ∀ s ∈ S1 ++ S2, s.length = F.length)
    (V1 V2 : List (List Value)) (hV : ∀ v ∈ V1 ++ V2, v.length = F.length) :
    (∃ w2 w4 : CsvWriterState,
      csvWriteRows (mkCsvWriter (Option.some F) Mode.write [])
          (S1.map (fun s => F.zip (s.map Value.str))) = Except.ok w2 ∧
      csvWriteRows (mkCsvWriter (Option.some F) Mode.append w2.file)
          (S2.map (fun s => F.zip (s.map Value.str))) = Except.ok w4 ∧
      csvReadAll w4.file =
        (S1 ++ S2).map (fun s => F.zip (s.map Value.str))) ∧
    (∃ w1 w3 : ExcelWriterState,
      mkExcelWriterWrite (Option.some F) = Except.ok w1 ∧
      mkExcelWriterAppend
          (excelWriteDicts w1 (V1.map (fun v => F.zip v))).sheet Option.none =
        Except.ok w3 ∧
      excelReadAllDicts
          (excelWriteDicts w3 (V2.map (fun v => F.zip v))).sheet =
        Except.ok ((V1 ++ V2).map (fun v => F.zip v))) := by
  have hS1 : ∀ s ∈ S1, s.length = F.length :=
    fun s hs => hS s (List.mem_append_left _ hs)
  have hS2 : ∀ s ∈ S2, s.length = F.length :=
    fun s hs => hS s (List.mem_append_right _ hs)
  have hV1 : ∀ v ∈ V1, v.length = F.length :=
    fun v hv => hV v (List.mem_append_left _ hv)
  have hV2 : ∀ v ∈ V2, v.length = F.length :=
    fun v hv => hV v (List.mem_append_right _ hv)
  constructor
  · refine ⟨⟨F, [F] ++ S1⟩, ⟨F, ([F] ++ S1) ++ S2⟩, ?_, ?_, ?_⟩
    · exact csvWriteRows_zip F hnd S1 [F] hS1
    · exact csvWriteRows_zip F hnd S2 ([F] ++ S1) hS2
    · rfl
  · have hempty : F.isEmpty = false := by
      cases F with
      | nil => exact absurd rfl hne
      | cons f t => rfl
    refine ⟨⟨F, [F.map Value.str], 1⟩, ⟨F, (F.map Value.str) :: V1, 1 + V1.length⟩,
      ?_, ?_, ?_⟩
    · simp only [mkExcelWriterWrite, Option.getD_some, hempty,
        Bool.false_eq_true, if_false]
      exact excelWriteList_header F hnd [] 0
    · have hsheetA : (excelWriteDicts ⟨F, [F.map Value.str], 1⟩
          (V1.map (fun v => F.zip v))).sheet = (F.map Value.str) :: V1 := by
        rw [excelWriteDicts_zip F hnd V1 [F.map Value.str] 1 hV1]
        rfl
      rw [hsheetA]
      simp only [mkExcelWriterAppend, headerFieldnames_strs F hne V1,
        List.drop_succ_cons, List.drop_zero]
      simp only [excelWriteList_header F hnd [] 0]
      have hrows1 : V1.map (fun r => F.zip (padTruncate r F.length)) =
          V1.map (fun v => F.zip v) :=
        List.map_congr_left
          (fun v hv => by rw [padTruncate_eq v F.length (hV1 v hv)])
      rw [hrows1, excelWriteDicts_zip F hnd V1 ([] ++ [F.map Value.str]) (0 + 1) hV1]
      rfl
    · have hsheetB : (excelWriteDicts ⟨F, (F.map Value.str) :: V1, 1 + V1.length⟩
          (V2.map (fun v => F.zip v))).sheet =
            (F.map Value.str) :: (V1 ++ V2) := by
        rw [excelWriteDicts_zip F hnd V2 ((F.map Value.str) :: V1)
          (1 + V1.length) hV2]
        rfl
      rw [hsheetB]
      simp only [excelReadAllDicts, headerFieldnames_strs F hne (V1 ++ V2),
        List.drop_succ_cons, List.drop_zero]
      have hrows2 : (V1 ++ V2).map (fun r => F.zip (padTruncate r F.length)) =
          (V1 ++ V2).map (fun v => F.zip v) :=
        List.map_congr_left
          (fun v hv => by rw [padTruncate_eq v F.length (hV v hv)])
      rw [hrows2]

/-- Witness for C4: two columns, one row written then one row appended,
for both the CSV and the spreadsheet flow. -/
theorem append_roundtrip_csv_excel_witness :
    (∃ w2 w4 : CsvWriterState,
      csvWriteRows (mkCsvWriter (Option.some ["a", "b"]) Mode.write [])
          ([["1", "2"]].map (fun s => (["a", "b"] : List String).zip
            (s.map Value.str))) = Except.ok w2 ∧
      csvWriteRows (mkCsvWriter (Option.some ["a", "b"]) Mode.append w2.file)
          ([["3", "4"]].map (fun s => (["a", "b"] : List String).zip
            (s.map Value.str))) = Except.ok w4 ∧
      csvReadAll w4.file =
        ([["1", "2"]] ++ [["3", "4"]]).map
          (fun s => (["a", "b"] : List String).zip (s.map Value.str))) ∧
    (∃ w1 w3 : ExcelWriterState,
      mkExcelWriterWrite (Option.some ["a", "b"]) = Except.ok w1 ∧
      mkExcelWriterAppend
          (excelWriteDicts w1 ([[Value.int 1, Value.int 2]].map
            (fun v => (["a", "b"] : List String).zip v))).sheet Option.none =
        Except.ok w3 ∧
      excelReadAllDicts
          (excelWriteDicts w3 ([[Value.int 3, Value.int 4]].map
            (fun v => (["a", "b"] : List String).zip v))).sheet =
        Except.ok (([[Value.int 1, Value.int 2]] ++ [[Value.int 3, Value.int 4]]).map
          (fun v => (["a", "b"] : List String).zip v))) :=
  append_roundtrip_csv_excel ["a", "b"] (by decide) (by decide)
    [["1", "2"]] [["3", "4"]] (by decide)
    [[Value.int 1, Value.int 2]] [[Value.int 3, Value.int 4]] (by decide)

end FileDataSource
